import Mathlib

/-!
Shallow embedding of the HANGNIMAL game server (src/app.py), a session-based
hangman-style word-guessing game, together with proofs of its specified
properties.

Modelling conventions:
* Python strings become Lean `String`; character-set membership (Python sets of
  single letters, stored as sorted lists) becomes membership in a `List Char`
  (the sort step `sorted(list(s))` only normalises order, which no property
  depends on, so insertion is modelled as consing).
* The external effects (translation service, Wikipedia summary service, and
  `random.choice`) are passed in explicitly: an `Oracle` bundles the translation
  function, the word that `pick_word()` would return and the summary record
  that `wikipedia_summary` would return for it; `random.choice(remaining)` is
  modelled by an index `k` reduced modulo the length of `remaining`.
* The two module-level caches (`TRANSLATE_CACHE`, `WIKI_CACHE`) are modelled as
  association lists threaded through `translate_to_th` / `wikipedia_summary`,
  with the external HTTP calls as `String → Option _` parameters (`none` means
  the call raised).
* Python truthiness of a string (`s or t`) is `if s = "" then t else s`.
-/

/-- `START_LIFE = 8` (src/app.py line 12). -/
def START_LIFE : Int := 8

/-- `HINT_LETTER_MAX = 2` (src/app.py line 13). -/
def HINT_LETTER_MAX : Nat := 2

/-- `HINT_LETTER_COST = 2` (src/app.py line 14). -/
def HINT_LETTER_COST : Int := 2

/-- The `status` field: `"playing" | "failed"` (src/app.py line 133). -/
inductive Status where
  | playing : Status
  | failed : Status
deriving DecidableEq, Repr

/-- The record returned by `wikipedia_summary`: `{ img, desc_en, extract_en }`
(src/app.py lines 76-84). -/
structure WikiInfo where
  img : String
  desc_en : String
  extract_en : String
deriving DecidableEq, Repr

/-- The all-empty summary record `{"img": "", "desc_en": "", "extract_en": ""}`. -/
def emptyWiki : WikiInfo := ⟨"", "", ""⟩

/-- The per-session game-state dictionary built by `start_round`
(src/app.py lines 121-141), as a typed record. -/
structure RoundState where
  stage : Int
  life : Int
  word : String
  img : String
  desc_en : String
  extract_en : String
  guessed : List Char
  wrong : List Char
  hint_letters_used : Nat
  status : Status
  message : String
  last_en : String
  last_th : String
  last_about_en : String
  last_about_th : String
deriving DecidableEq, Repr

/-- `mask_word` without the `" ".join`: the per-position masked characters
`[c if c in guessed else "_" for c in word]` (src/app.py line 112). -/
def maskedChars (word : String) (guessed : List Char) : List Char :=
  word.data.map (fun c => if c ∈ guessed then c else '_')

/-- `mask_word(word, guessed) = " ".join(c if c in guessed else "_" for c in word)`
(src/app.py lines 111-112). -/
def mask_word (word : String) (guessed : List Char) : String :=
  String.mk (List.intersperse ' ' (maskedChars word guessed))

/-- `start_round(stage, life)` (src/app.py lines 117-141).  The randomly picked
word and its summary record are supplied by the caller (they come from the
`Oracle` at the call sites). -/
def start_round (stage : Int) (life : Int) (word : String) (info : WikiInfo) :
    RoundState where
  stage := stage
  life := life
  word := word
  img := info.img
  desc_en := info.desc_en
  extract_en := info.extract_en
  guessed := []
  wrong := []
  hint_letters_used := 0
  status := Status.playing
  message := "🧩 STAGE " ++ toString stage ++ " started"
  last_en := ""
  last_th := ""
  last_about_en := ""
  last_about_th := ""

/-- The public projection record returned to the client by `public_state`
(src/app.py lines 143-166). -/
structure PublicState where
  stage : Int
  life : Int
  length : Nat
  masked : String
  wrong : List Char
  status : Status
  message : String
  img : String
  hint_letters_used : Nat
  hint_letters_max : Nat
  last_en : String
  last_th : String
  last_about_en : String
  last_about_th : String
deriving DecidableEq, Repr

/-- `public_state(st)` (src/app.py lines 143-166). -/
def public_state (st : RoundState) : PublicState where
  stage := st.stage
  life := st.life
  length := st.word.length
  masked := if st.word = "" then "" else mask_word st.word st.guessed
  wrong := st.wrong
  status := st.status
  message := st.message
  img := st.img
  hint_letters_used := st.hint_letters_used
  hint_letters_max := HINT_LETTER_MAX
  last_en := st.last_en
  last_th := st.last_th
  last_about_en := st.last_about_en
  last_about_th := st.last_about_th

/-- External effects of one API call, made explicit: `tr` is the (total,
exception-free) result of `translate_to_th`, and `nextWord` / `nextInfo` are
what `pick_word()` and `wikipedia_summary` would deliver if a new round is
started by this call. -/
structure Oracle where
  tr : String → String
  nextWord : String
  nextInfo : WikiInfo

/-- Python `str.strip()` modelled on the character list: drop whitespace from
both ends. -/
def pyStrip (s : String) : String :=
  String.mk (((s.data.dropWhile Char.isWhitespace).reverse.dropWhile
    Char.isWhitespace).reverse)

/-- Python `str.lower()` modelled on the character list. -/
def pyLower (s : String) : String :=
  String.mk (s.data.map Char.toLower)

/-- `about_en = (st.get("desc_en") or st.get("extract_en") or "").strip()`
(src/app.py lines 238, 250, 306, 318). -/
def about_text (st : RoundState) : String :=
  pyStrip (if st.desc_en = "" then st.extract_en else st.desc_en)

/-- The reveal-capture block shared by the fail and clear paths
(src/app.py lines 240-243, 252-255, 308-311, 319-322):
`last_en = word`, `last_th = translate_to_th(word) or "-"`,
`last_about_en = about_en or "-"`,
`last_about_th = translate_to_th(about_en) if about_en else "-"`. -/
def captureReveal (tr : String → String) (st : RoundState) : RoundState :=
  let about_en := about_text st
  { st with
    last_en := st.word
    last_th := if tr st.word = "" then "-" else tr st.word
    last_about_en := if about_en = "" then "-" else about_en
    last_about_th := if about_en = "" then "-" else tr about_en }

/-- The end-of-round check, duplicated verbatim in `api_guess`
(src/app.py lines 236-268) and `api_hint_letter` (lines 304-333):
first the fail check (`life <= 0`), then the clear check (all letters
guessed), else the state is returned unchanged.  The game-over / clear
messages interpolate the captured `last_en` / `last_th` values. -/
def endOfRound (orc : Oracle) (st : RoundState) : RoundState :=
  if st.life ≤ 0 then
    { captureReveal orc.tr { st with status := Status.failed } with
      message := "💀 GAME OVER! Word: " ++ (captureReveal orc.tr st).last_en ++
        " | ไทย: " ++ (captureReveal orc.tr st).last_th }
  else if ∀ c ∈ st.word.data, c ∈ st.guessed then
    { start_round (st.stage + 1) st.life orc.nextWord orc.nextInfo with
      last_en := (captureReveal orc.tr st).last_en
      last_th := (captureReveal orc.tr st).last_th
      last_about_en := (captureReveal orc.tr st).last_about_en
      last_about_th := (captureReveal orc.tr st).last_about_th
      message := "🎉 CLEAR! " ++ (captureReveal orc.tr st).last_en ++ " | ไทย: " ++
        (captureReveal orc.tr st).last_th ++ " → Next word!" }
  else st

/-- The body of `api_guess` after validation, for a fresh letter `c`
(src/app.py lines 223-234): correct adds `c` to `guessed` and `+2` life,
wrong adds `c` to `wrong` and `-1` life. -/
def applyFresh (st : RoundState) (c : Char) : RoundState :=
  if c ∈ st.word.data then
    { st with
      guessed := c :: st.guessed
      life := st.life + 2
      message := "✅ Correct! +2 life -> " ++ toString (st.life + 2) }
  else
    { st with
      wrong := c :: st.wrong
      life := st.life - 1
      message := "❌ Wrong! -1 life -> " ++ toString (st.life - 1) }

/-- `g = (data.get("guess") or "").lower().strip()` (src/app.py line 206),
modelled on the character list: lowercase every character, then drop
whitespace from both ends. -/
def normGuess (raw : String) : List Char :=
  (((raw.data.map Char.toLower).dropWhile Char.isWhitespace).reverse.dropWhile
    Char.isWhitespace).reverse

/-- `api_guess` after input normalisation, given the single guessed character
`c` (src/app.py lines 208-271): invalid / repeated letters only set a message;
a fresh letter is applied and then the end-of-round check runs. -/
def guessChar (orc : Oracle) (st : RoundState) (c : Char) : RoundState :=
  if ¬ c.isAlpha then { st with message := "Enter ONE letter only (a-z)" }
  else if c ∈ st.guessed ∨ c ∈ st.wrong then
    { st with message := "Already guessed: " ++ String.mk [c] }
  else endOfRound orc (applyFresh st c)

/-- `POST /api/guess` (src/app.py lines 197-271) for an existing session
state.  The request payload's `guess` field is `raw`; the code lowercases and
strips it, then requires exactly one alphabetic character
(`len(g) != 1 or not g.isalpha()`), which for the normalised string means its
character list is `[c]` with `c` alphabetic. -/
def api_guess (orc : Oracle) (st : RoundState) (raw : String) : RoundState :=
  if st.status ≠ Status.playing then st
  else
    match normGuess raw with
    | [c] => guessChar orc st c
    | _ => { st with message := "Enter ONE letter only (a-z)" }

/-- `remaining = sorted({c for c in word if c.isalpha() and c not in guessed})`
(src/app.py line 289); the sort only fixes the iteration order consumed by
`random.choice`, which is abstracted by an index anyway, so only the
deduplication is kept. -/
def remainingLetters (st : RoundState) : List Char :=
  (st.word.data.filter (fun c => c.isAlpha && !(st.guessed.contains c))).dedup

/-- `reveal = random.choice(remaining)` (src/app.py line 296): the element of
`remainingLetters st` selected by the abstracted randomness index `k`. -/
def hintReveal (st : RoundState) (k : Nat) : Char :=
  (remainingLetters st).getD (k % (remainingLetters st).length) 'a'

/-- `POST /api/hint_letter` (src/app.py lines 273-336) for an existing session
state; `k` selects which element of `remaining` the call to `random.choice`
returns. -/
def api_hint_letter (orc : Oracle) (k : Nat) (st : RoundState) : RoundState :=
  if st.status ≠ Status.playing then st
  else if st.hint_letters_used ≥ HINT_LETTER_MAX then
    { st with message := "Hint letter limit reached (2 per word)." }
  else if remainingLetters st = [] then
    { st with message := "No letters left to reveal." }
  else
    endOfRound orc
      { st with
        guessed := hintReveal st k :: st.guessed
        hint_letters_used := st.hint_letters_used + 1
        life := st.life - HINT_LETTER_COST
        message := "💡 Hint: " ++ String.mk [hintReveal st k] ++ " (-2 life) | " ++
          toString (st.hint_letters_used + 1) ++ "/2" }

/-- The MyMemory fallback path of `translate_to_th` (src/app.py lines 59-71):
on success the extracted `translatedText` is stripped and cached only when
non-empty; an exception returns `""` without touching the cache. -/
def translateFallback (mmCall : String → Option String)
    (cache : List (String × String)) (text : String) :
    String × List (String × String) :=
  match mmCall text with
  | some raw =>
    if pyStrip raw = "" then (pyStrip raw, cache)
    else (pyStrip raw, (pyLower text, pyStrip raw) :: cache)
  | none => ("", cache)

/-- `translate_to_th(text)` (src/app.py lines 39-71), with the module-level
`TRANSLATE_CACHE` threaded explicitly as an association list keyed by the
lowercased text.  `hasLib` is `HAS_TRANSLATE_LIB`; `libCall text` is the result
of `Translator(...).translate(text) or ""` (`none` when the call raised), and
`mmCall text` is the `translatedText` field extracted from the MyMemory
response (`none` when the request raised).  Returns the translation together
with the updated cache. -/
def translate_to_th (hasLib : Bool) (libCall mmCall : String → Option String)
    (cache : List (String × String)) (text0 : String) :
    String × List (String × String) :=
  if pyStrip text0 = "" then ("", cache)
  else
    match cache.lookup (pyLower (pyStrip text0)) with
    | some v => (v, cache)
    | none =>
      if hasLib then
        match libCall (pyStrip text0) with
        | some raw =>
          if pyStrip raw = "" then (pyStrip raw, cache)
          else (pyStrip raw, (pyLower (pyStrip text0), pyStrip raw) :: cache)
        | none => translateFallback mmCall cache (pyStrip text0)
      else translateFallback mmCall cache (pyStrip text0)

/-- `wikipedia_summary(word)` (src/app.py lines 76-108), with the module-level
`WIKI_CACHE` threaded explicitly.  `svc word` gives the three fields extracted
from the REST response (`none` when the request raised); the extracted fields
are stripped as in the source.  On failure the all-empty record is cached. -/
def wikipedia_summary (svc : String → Option WikiInfo)
    (cache : List (String × WikiInfo)) (word0 : String) :
    WikiInfo × List (String × WikiInfo) :=
  if pyStrip word0 = "" then (emptyWiki, cache)
  else
    match cache.lookup (pyLower (pyStrip word0)) with
    | some v => (v, cache)
    | none =>
      match svc (pyStrip word0) with
      | some raw =>
        (⟨pyStrip raw.img, pyStrip raw.desc_en, pyStrip raw.extract_en⟩,
          (pyLower (pyStrip word0),
            ⟨pyStrip raw.img, pyStrip raw.desc_en, pyStrip raw.extract_en⟩) :: cache)
      | none => (emptyWiki, (pyLower (pyStrip word0), emptyWiki) :: cache)

/-- The states a single session can be in: created by `api_start`
(`start_round(stage=1, life=START_LIFE)`, src/app.py lines 191-195) and evolved
by the guess and hint endpoints, with arbitrary external-service behaviour. -/
inductive Reachable : RoundState → Prop where
  | start (w : String) (info : WikiInfo) :
      Reachable (start_round 1 START_LIFE w info)
  | guess (st : RoundState) (orc : Oracle) (raw : String) :
      Reachable st → Reachable (api_guess orc st raw)
  | hint (st : RoundState) (orc : Oracle) (k : Nat) :
      Reachable st → Reachable (api_hint_letter orc k st)

/-- A fixed oracle for concrete evaluations: the translation service always
fails (returns `""`), the next word is `"owl"` with an empty summary. -/
def demoOracle : Oracle where
  tr := fun _ => ""
  nextWord := "owl"
  nextInfo := emptyWiki

/-- A fresh stage-1 round on the word `"cat"` (life 8, nothing guessed). -/
def demoState : RoundState := start_round 1 START_LIFE "cat" emptyWiki

/-- `demoState` with life lowered to 1, so that any wrong guess or hint
fails the round. -/
def lowLifeState : RoundState := { demoState with life := 1 }

/-- A failed state: `demoState` after guessing wrongly at life 1. -/
def failedState : RoundState := api_guess demoOracle lowLifeState "x"

/-- `demoState` with `c` and `a` already guessed, so only `t` remains. -/
def nearlyDone : RoundState := { demoState with guessed := ['c', 'a'] }

/-- `demoState` with both hint letters already used. -/
def hintMaxState : RoundState := { demoState with hint_letters_used := 2 }

/-! ## Basic lemmas about the round engine -/

@[simp] theorem captureReveal_stage (tr : String → String) (st : RoundState) :
    (captureReveal tr st).stage = st.stage := rfl

@[simp] theorem captureReveal_life (tr : String → String) (st : RoundState) :
    (captureReveal tr st).life = st.life := rfl

@[simp] theorem captureReveal_word (tr : String → String) (st : RoundState) :
    (captureReveal tr st).word = st.word := rfl

@[simp] theorem captureReveal_status (tr : String → String) (st : RoundState) :
    (captureReveal tr st).status = st.status := rfl

@[simp] theorem captureReveal_guessed (tr : String → String) (st : RoundState) :
    (captureReveal tr st).guessed = st.guessed := rfl

@[simp] theorem captureReveal_wrong (tr : String → String) (st : RoundState) :
    (captureReveal tr st).wrong = st.wrong := rfl

@[simp] theorem captureReveal_hint (tr : String → String) (st : RoundState) :
    (captureReveal tr st).hint_letters_used = st.hint_letters_used := rfl

@[simp] theorem captureReveal_last_en (tr : String → String) (st : RoundState) :
    (captureReveal tr st).last_en = st.word := rfl

@[simp] theorem captureReveal_last_th (tr : String → String) (st : RoundState) :
    (captureReveal tr st).last_th = if tr st.word = "" then "-" else tr st.word := rfl

@[simp] theorem captureReveal_last_about_en (tr : String → String) (st : RoundState) :
    (captureReveal tr st).last_about_en =
      if about_text st = "" then "-" else about_text st := rfl

@[simp] theorem captureReveal_last_about_th (tr : String → String) (st : RoundState) :
    (captureReveal tr st).last_about_th =
      if about_text st = "" then "-" else tr (about_text st) := rfl

theorem endOfRound_of_fail (orc : Oracle) (st : RoundState) (h : st.life ≤ 0) :
    endOfRound orc st =
      { captureReveal orc.tr { st with status := Status.failed } with
        message := "💀 GAME OVER! Word: " ++ (captureReveal orc.tr st).last_en ++
          " | ไทย: " ++ (captureReveal orc.tr st).last_th } := by
  unfold endOfRound
  rw [if_pos h]

theorem endOfRound_of_clear (orc : Oracle) (st : RoundState)
    (h1 : ¬ st.life ≤ 0) (h2 : ∀ c ∈ st.word.data, c ∈ st.guessed) :
    endOfRound orc st =
      { start_round (st.stage + 1) st.life orc.nextWord orc.nextInfo with
        last_en := (captureReveal orc.tr st).last_en
        last_th := (captureReveal orc.tr st).last_th
        last_about_en := (captureReveal orc.tr st).last_about_en
        last_about_th := (captureReveal orc.tr st).last_about_th
        message := "🎉 CLEAR! " ++ (captureReveal orc.tr st).last_en ++ " | ไทย: " ++
          (captureReveal orc.tr st).last_th ++ " → Next word!" } := by
  unfold endOfRound
  rw [if_neg h1, if_pos h2]

theorem endOfRound_of_none (orc : Oracle) (st : RoundState)
    (h1 : ¬ st.life ≤ 0) (h2 : ¬ ∀ c ∈ st.word.data, c ∈ st.guessed) :
    endOfRound orc st = st := by
  unfold endOfRound
  rw [if_neg h1, if_neg h2]

theorem endOfRound_life (orc : Oracle) (st : RoundState) :
    (endOfRound orc st).life = st.life := by
  by_cases h1 : st.life ≤ 0
  · rw [endOfRound_of_fail orc st h1]
    simp
  · by_cases h2 : ∀ c ∈ st.word.data, c ∈ st.guessed
    · rw [endOfRound_of_clear orc st h1 h2]
      simp [start_round]
    · rw [endOfRound_of_none orc st h1 h2]

theorem endOfRound_status_iff (orc : Oracle) (st : RoundState)
    (hp : st.status = Status.playing) :
    ((endOfRound orc st).status = Status.failed ↔ st.life ≤ 0) := by
  by_cases h1 : st.life ≤ 0
  · rw [endOfRound_of_fail orc st h1]
    simp [h1]
  · by_cases h2 : ∀ c ∈ st.word.data, c ∈ st.guessed
    · rw [endOfRound_of_clear orc st h1 h2]
      simp [start_round, h1]
    · rw [endOfRound_of_none orc st h1 h2]
      simp [hp, h1]

theorem endOfRound_hint_used (orc : Oracle) (st : RoundState) :
    (endOfRound orc st).hint_letters_used = st.hint_letters_used ∨
      (endOfRound orc st).hint_letters_used = 0 := by
  by_cases h1 : st.life ≤ 0
  · left
    rw [endOfRound_of_fail orc st h1]
    simp
  · by_cases h2 : ∀ c ∈ st.word.data, c ∈ st.guessed
    · right
      rw [endOfRound_of_clear orc st h1 h2]
      simp [start_round]
    · left
      rw [endOfRound_of_none orc st h1 h2]

@[simp] theorem applyFresh_stage (st : RoundState) (c : Char) :
    (applyFresh st c).stage = st.stage := by
  unfold applyFresh
  by_cases h : c ∈ st.word.data <;> simp [h]

@[simp] theorem applyFresh_word (st : RoundState) (c : Char) :
    (applyFresh st c).word = st.word := by
  unfold applyFresh
  by_cases h : c ∈ st.word.data <;> simp [h]

@[simp] theorem applyFresh_status (st : RoundState) (c : Char) :
    (applyFresh st c).status = st.status := by
  unfold applyFresh
  by_cases h : c ∈ st.word.data <;> simp [h]

@[simp] theorem applyFresh_hint (st : RoundState) (c : Char) :
    (applyFresh st c).hint_letters_used = st.hint_letters_used := by
  unfold applyFresh
  by_cases h : c ∈ st.word.data <;> simp [h]

@[simp] theorem applyFresh_desc (st : RoundState) (c : Char) :
    (applyFresh st c).desc_en = st.desc_en := by
  unfold applyFresh
  by_cases h : c ∈ st.word.data <;> simp [h]

@[simp] theorem applyFresh_extract (st : RoundState) (c : Char) :
    (applyFresh st c).extract_en = st.extract_en := by
  unfold applyFresh
  by_cases h : c ∈ st.word.data <;> simp [h]

theorem applyFresh_life (st : RoundState) (c : Char) :
    (applyFresh st c).life =
      if c ∈ st.word.data then st.life + 2 else st.life - 1 := by
  unfold applyFresh
  by_cases h : c ∈ st.word.data <;> simp [h]

theorem applyFresh_guessed (st : RoundState) (c : Char) :
    (applyFresh st c).guessed =
      if c ∈ st.word.data then c :: st.guessed else st.guessed := by
  unfold applyFresh
  by_cases h : c ∈ st.word.data <;> simp [h]

theorem applyFresh_wrong (st : RoundState) (c : Char) :
    (applyFresh st c).wrong =
      if c ∈ st.word.data then st.wrong else c :: st.wrong := by
  unfold applyFresh
  by_cases h : c ∈ st.word.data <;> simp [h]

theorem api_guess_not_playing (orc : Oracle) (st : RoundState) (raw : String)
    (h : st.status ≠ Status.playing) : api_guess orc st raw = st := by
  unfold api_guess
  rw [if_pos h]

theorem api_guess_norm (orc : Oracle) (st : RoundState) (raw : String) (c : Char)
    (hp : st.status = Status.playing) (hn : normGuess raw = [c]) :
    api_guess orc st raw = guessChar orc st c := by
  unfold api_guess
  rw [if_neg (by simp [hp]), hn]

theorem api_guess_invalid (orc : Oracle) (st : RoundState) (raw : String)
    (hp : st.status = Status.playing) (hn : ∀ c, normGuess raw ≠ [c]) :
    api_guess orc st raw = { st with message := "Enter ONE letter only (a-z)" } := by
  unfold api_guess
  rw [if_neg (by simp [hp])]
  rcases hd : normGuess raw with _ | ⟨a, _ | ⟨b, t⟩⟩
  · rfl
  · exact absurd hd (hn a)
  · rfl

theorem guessChar_nonalpha (orc : Oracle) (st : RoundState) (c : Char)
    (ha : ¬ c.isAlpha) :
    guessChar orc st c = { st with message := "Enter ONE letter only (a-z)" } := by
  unfold guessChar
  rw [if_pos ha]

theorem guessChar_repeat (orc : Oracle) (st : RoundState) (c : Char)
    (ha : c.isAlpha) (hr : c ∈ st.guessed ∨ c ∈ st.wrong) :
    guessChar orc st c =
      { st with message := "Already guessed: " ++ String.mk [c] } := by
  unfold guessChar
  rw [if_neg (not_not_intro ha), if_pos hr]

theorem guessChar_fresh (orc : Oracle) (st : RoundState) (c : Char)
    (ha : c.isAlpha) (hg : c ∉ st.guessed) (hw : c ∉ st.wrong) :
    guessChar orc st c = endOfRound orc (applyFresh st c) := by
  unfold guessChar
  rw [if_neg (not_not_intro ha), if_neg (by push_neg; exact ⟨hg, hw⟩)]

theorem api_hint_not_playing (orc : Oracle) (k : Nat) (st : RoundState)
    (h : st.status ≠ Status.playing) : api_hint_letter orc k st = st := by
  unfold api_hint_letter
  rw [if_pos h]

theorem api_hint_limit (orc : Oracle) (k : Nat) (st : RoundState)
    (hp : st.status = Status.playing)
    (h : st.hint_letters_used ≥ HINT_LETTER_MAX) :
    api_hint_letter orc k st =
      { st with message := "Hint letter limit reached (2 per word)." } := by
  unfold api_hint_letter
  rw [if_neg (by simp [hp]), if_pos h]

theorem api_hint_noletters (orc : Oracle) (k : Nat) (st : RoundState)
    (hp : st.status = Status.playing)
    (h2 : ¬ st.hint_letters_used ≥ HINT_LETTER_MAX)
    (h3 : remainingLetters st = []) :
    api_hint_letter orc k st =
      { st with message := "No letters left to reveal." } := by
  unfold api_hint_letter
  rw [if_neg (by simp [hp]), if_neg h2, if_pos h3]

theorem api_hint_accept (orc : Oracle) (k : Nat) (st : RoundState)
    (hp : st.status = Status.playing)
    (h2 : ¬ st.hint_letters_used ≥ HINT_LETTER_MAX)
    (h3 : ¬ remainingLetters st = []) :
    api_hint_letter orc k st = endOfRound orc
      { st with
        guessed := hintReveal st k :: st.guessed
        hint_letters_used := st.hint_letters_used + 1
        life := st.life - HINT_LETTER_COST
        message := "💡 Hint: " ++ String.mk [hintReveal st k] ++ " (-2 life) | " ++
          toString (st.hint_letters_used + 1) ++ "/2" } := by
  unfold api_hint_letter
  rw [if_neg (by simp [hp]), if_neg h2, if_neg h3]

/-! ## Reachability invariants -/

theorem reachable_status_iff (st : RoundState) (h : Reachable st) :
    (st.status = Status.failed ↔ st.life ≤ 0) := by
  induction h with
  | start w info =>
    simp [start_round, START_LIFE]
  | guess st orc raw hst ih =>
    by_cases hp : st.status = Status.playing
    · rcases hd : normGuess raw with _ | ⟨c, _ | ⟨c2, t⟩⟩
      · rw [api_guess_invalid orc st raw hp (by simp [hd])]
        simpa using ih
      · rw [api_guess_norm orc st raw c hp hd]
        by_cases ha : c.isAlpha
        · by_cases hr : c ∈ st.guessed ∨ c ∈ st.wrong
          · rw [guessChar_repeat orc st c ha hr]
            simpa using ih
          · push_neg at hr
            rw [guessChar_fresh orc st c ha hr.1 hr.2]
            rw [endOfRound_status_iff orc _ (by simp [hp])]
            rw [endOfRound_life]
        · rw [guessChar_nonalpha orc st c ha]
          simpa using ih
      · rw [api_guess_invalid orc st raw hp (by simp [hd])]
        simpa using ih
    · rw [api_guess_not_playing orc st raw hp]
      exact ih
  | hint st orc k hst ih =>
    by_cases hp : st.status = Status.playing
    · by_cases h2 : st.hint_letters_used ≥ HINT_LETTER_MAX
      · rw [api_hint_limit orc k st hp h2]
        simpa using ih
      · by_cases h3 : remainingLetters st = []
        · rw [api_hint_noletters orc k st hp h2 h3]
          simpa using ih
        · rw [api_hint_accept orc k st hp h2 h3]
          rw [endOfRound_status_iff orc _ (by simp [hp])]
          rw [endOfRound_life]
    · rw [api_hint_not_playing orc k st hp]
      exact ih

theorem reachable_hint_le (st : RoundState) (h : Reachable st) :
    st.hint_letters_used ≤ HINT_LETTER_MAX := by
  induction h with
  | start w info =>
    simp [start_round, HINT_LETTER_MAX]
  | guess st orc raw hst ih =>
    by_cases hp : st.status = Status.playing
    · rcases hd : normGuess raw with _ | ⟨c, _ | ⟨c2, t⟩⟩
      · rw [api_guess_invalid orc st raw hp (by simp [hd])]
        simpa using ih
      · rw [api_guess_norm orc st raw c hp hd]
        by_cases ha : c.isAlpha
        · by_cases hr : c ∈ st.guessed ∨ c ∈ st.wrong
          · rw [guessChar_repeat orc st c ha hr]
            simpa using ih
          · push_neg at hr
            rw [guessChar_fresh orc st c ha hr.1 hr.2]
            rcases endOfRound_hint_used orc (applyFresh st c) with he | he
            · rw [he, applyFresh_hint]
              exact ih
            · rw [he]
              exact Nat.zero_le _
        · rw [guessChar_nonalpha orc st c ha]
          simpa using ih
      · rw [api_guess_invalid orc st raw hp (by simp [hd])]
        simpa using ih
    · rw [api_guess_not_playing orc st raw hp]
      exact ih
  | hint st orc k hst ih =>
    by_cases hp : st.status = Status.playing
    · by_cases h2 : st.hint_letters_used ≥ HINT_LETTER_MAX
      · rw [api_hint_limit orc k st hp h2]
        simpa using ih
      · by_cases h3 : remainingLetters st = []
        · rw [api_hint_noletters orc k st hp h2 h3]
          simpa using ih
        · rw [api_hint_accept orc k st hp h2 h3]
          rcases endOfRound_hint_used orc _ with he | he
          · rw [he]
            simpa using Nat.succ_le_of_lt (Nat.lt_of_not_le (by simpa using h2))
          · rw [he]
            exact Nat.zero_le _
    · rw [api_hint_not_playing orc k st hp]
      exact ih

/-! ## Claim theorems -/

/-- C1: In every reachable state, `status = Failed` iff `life ≤ 0`; moreover
the failure check takes priority over the clear check: any fresh valid guess
and any accepted hint that drives life to `≤ 0` yields a Failed state with
`lastReveal` captured (`last_en = word`), even if the move also completed the
word. -/
theorem C1_failed_iff_life_nonpos :
    (∀ st : RoundState, Reachable st → (st.status = Status.failed ↔ st.life ≤ 0)) ∧
    (∀ (orc : Oracle) (st : RoundState) (raw : String) (c : Char),
      st.status = Status.playing → normGuess raw = [c] → c.isAlpha →
      c ∉ st.guessed → c ∉ st.wrong →
      (if c ∈ st.word.data then st.life + 2 else st.life - 1) ≤ 0 →
      (api_guess orc st raw).status = Status.failed ∧
        (api_guess orc st raw).last_en = st.word) ∧
    (∀ (orc : Oracle) (k : Nat) (st : RoundState),
      st.status = Status.playing → st.hint_letters_used < HINT_LETTER_MAX →
      remainingLetters st ≠ [] → st.life - HINT_LETTER_COST ≤ 0 →
      (api_hint_letter orc k st).status = Status.failed ∧
        (api_hint_letter orc k st).last_en = st.word) := by
  refine ⟨reachable_status_iff, ?_, ?_⟩
  · intro orc st raw c hp hn ha hg hw hlife
    rw [api_guess_norm orc st raw c hp hn, guessChar_fresh orc st c ha hg hw]
    have hf : (applyFresh st c).life ≤ 0 := by
      rw [applyFresh_life]
      exact hlife
    rw [endOfRound_of_fail orc _ hf]
    constructor
    · simp
    · simp
  · intro orc k st hp h2 h3 hl
    rw [api_hint_accept orc k st hp (by omega) h3]
    have hf : (RoundState.life
        { st with
          guessed := hintReveal st k :: st.guessed
          hint_letters_used := st.hint_letters_used + 1
          life := st.life - HINT_LETTER_COST
          message := "💡 Hint: " ++ String.mk [hintReveal st k] ++ " (-2 life) | " ++
            toString (st.hint_letters_used + 1) ++ "/2" }) ≤ 0 := by
      simpa using hl
    rw [endOfRound_of_fail orc _ hf]
    constructor
    · simp
    · simp

/-- C1 witness: the invariant instantiated at a freshly started round, a
life-1 wrong guess and a life-1 hint, each producing a Failed state. -/
theorem C1_witness :
    ((start_round 1 START_LIFE "cat" emptyWiki).status = Status.failed ↔
      (start_round 1 START_LIFE "cat" emptyWiki).life ≤ 0) ∧
    ((api_guess demoOracle lowLifeState "x").status = Status.failed ∧
      (api_guess demoOracle lowLifeState "x").last_en = lowLifeState.word) ∧
    ((api_hint_letter demoOracle 0 lowLifeState).status = Status.failed ∧
      (api_hint_letter demoOracle 0 lowLifeState).last_en = lowLifeState.word) :=
  ⟨C1_failed_iff_life_nonpos.1 _ (Reachable.start "cat" emptyWiki),
   C1_failed_iff_life_nonpos.2.1 demoOracle lowLifeState "x" 'x'
     (by decide) (by decide) (by decide) (by decide) (by decide) (by decide),
   C1_failed_iff_life_nonpos.2.2 demoOracle 0 lowLifeState
     (by decide) (by decide) (by decide) (by decide)⟩

/-- C2: a fresh valid letter guess changes life by exactly `+2` when the letter
occurs in the word and `-1` otherwise, and an accepted hint changes life by
exactly `-2`, independent of the prior life value and also when the move ends
the round (fail or clear). -/
theorem C2_life_deltas :
    (∀ (orc : Oracle) (st : RoundState) (raw : String) (c : Char),
      st.status = Status.playing → normGuess raw = [c] → c.isAlpha →
      c ∉ st.guessed → c ∉ st.wrong →
      (api_guess orc st raw).life =
        st.life + (if c ∈ st.word.data then 2 else -1)) ∧
    (∀ (orc : Oracle) (k : Nat) (st : RoundState),
      st.status = Status.playing → st.hint_letters_used < HINT_LETTER_MAX →
      remainingLetters st ≠ [] →
      (api_hint_letter orc k st).life = st.life - HINT_LETTER_COST) := by
  constructor
  · intro orc st raw c hp hn ha hg hw
    rw [api_guess_norm orc st raw c hp hn, guessChar_fresh orc st c ha hg hw,
      endOfRound_life, applyFresh_life]
    by_cases hm : c ∈ st.word.data
    · simp [hm]
    · simp [hm]
      omega
  · intro orc k st hp h2 h3
    rw [api_hint_accept orc k st hp (by omega) h3, endOfRound_life]

/-- C2 witness: from a fresh `"cat"` round at life 8, guessing `c` gives
life `8 + 2`, guessing `x` gives life `8 + (-1)`, and a hint gives `8 - 2`. -/
theorem C2_witness :
    ((api_guess demoOracle demoState "c").life =
      demoState.life + (if 'c' ∈ demoState.word.data then 2 else -1)) ∧
    ((api_guess demoOracle demoState "x").life =
      demoState.life + (if 'x' ∈ demoState.word.data then 2 else -1)) ∧
    ((api_hint_letter demoOracle 0 demoState).life =
      demoState.life - HINT_LETTER_COST) :=
  ⟨C2_life_deltas.1 demoOracle demoState "c" 'c'
     (by decide) (by decide) (by decide) (by decide) (by decide),
   C2_life_deltas.1 demoOracle demoState "x" 'x'
     (by decide) (by decide) (by decide) (by decide) (by decide),
   C2_life_deltas.2 demoOracle 0 demoState
     (by decide) (by decide) (by decide)⟩

/-- C7: once a state is Failed, both the guess and the hint endpoints return
the state completely unchanged (so the public projection is unchanged as
well), until an external reset/start replaces it. -/
theorem C7_failed_noop :
    ∀ (orc : Oracle) (k : Nat) (st : RoundState) (raw : String),
      st.status = Status.failed →
      api_guess orc st raw = st ∧ api_hint_letter orc k st = st ∧
        public_state (api_guess orc st raw) = public_state st := by
  intro orc k st raw h
  have h1 := api_guess_not_playing orc st raw (by simp [h])
  have h2 := api_hint_not_playing orc k st (by simp [h])
  exact ⟨h1, h2, by rw [h1]⟩

/-- C7 witness: at a concrete failed state, guessing and hinting are no-ops. -/
theorem C7_witness :
    api_guess demoOracle failedState "a" = failedState ∧
    api_hint_letter demoOracle 0 failedState = failedState ∧
    public_state (api_guess demoOracle failedState "a") =
      public_state failedState :=
  C7_failed_noop demoOracle 0 failedState "a" (by decide)

theorem mem_remainingLetters (st : RoundState) (d : Char) :
    d ∈ remainingLetters st ↔ d ∈ st.word.data ∧ d.isAlpha ∧ d ∉ st.guessed := by
  simp [remainingLetters, List.mem_dedup, List.mem_filter, and_assoc]

theorem hintReveal_mem (st : RoundState) (k : Nat)
    (h : remainingLetters st ≠ []) : hintReveal st k ∈ remainingLetters st := by
  unfold hintReveal
  have hlen : 0 < (remainingLetters st).length := List.length_pos.mpr h
  have hlt : k % (remainingLetters st).length < (remainingLetters st).length :=
    Nat.mod_lt _ hlen
  rw [List.getD_eq_getElem?_getD, List.getElem?_eq_getElem hlt]
  exact List.getElem_mem hlt

theorem hintReveal_of_singleton (st : RoundState) (k : Nat) (r : Char)
    (h : remainingLetters st = [r]) : hintReveal st k = r := by
  unfold hintReveal
  rw [h]
  simp [Nat.mod_one]

/-- C3: when a guess or a hint completes the word while life stays positive,
the state returned to the caller is a fresh round: stage incremented by
exactly 1, life carried over from the clearing moment, `guessed`/`wrong`/
`hintLettersUsed` reset, status Playing, the word freshly picked, and the four
`lastReveal` fields carrying the values captured from the just-cleared
word. -/
theorem C3_clear_starts_next_round :
    (∀ (orc : Oracle) (st : RoundState) (raw : String) (c : Char),
      st.status = Status.playing → normGuess raw = [c] → c.isAlpha →
      c ∉ st.guessed → c ∉ st.wrong → c ∈ st.word.data →
      ¬ st.life + 2 ≤ 0 → (∀ d ∈ st.word.data, d ∈ c :: st.guessed) →
      (api_guess orc st raw).stage = st.stage + 1 ∧
      (api_guess orc st raw).life = st.life + 2 ∧
      (api_guess orc st raw).word = orc.nextWord ∧
      (api_guess orc st raw).guessed = [] ∧
      (api_guess orc st raw).wrong = [] ∧
      (api_guess orc st raw).hint_letters_used = 0 ∧
      (api_guess orc st raw).status = Status.playing ∧
      (api_guess orc st raw).last_en = st.word ∧
      (api_guess orc st raw).last_th =
        (if orc.tr st.word = "" then "-" else orc.tr st.word) ∧
      (api_guess orc st raw).last_about_en =
        (if about_text st = "" then "-" else about_text st) ∧
      (api_guess orc st raw).last_about_th =
        (if about_text st = "" then "-" else orc.tr (about_text st))) ∧
    (∀ (orc : Oracle) (k : Nat) (st : RoundState) (r : Char),
      st.status = Status.playing →
      st.hint_letters_used < HINT_LETTER_MAX →
      (∀ d ∈ st.word.data, d.isAlpha) →
      remainingLetters st = [r] →
      ¬ st.life - HINT_LETTER_COST ≤ 0 →
      (api_hint_letter orc k st).stage = st.stage + 1 ∧
      (api_hint_letter orc k st).life = st.life - HINT_LETTER_COST ∧
      (api_hint_letter orc k st).word = orc.nextWord ∧
      (api_hint_letter orc k st).guessed = [] ∧
      (api_hint_letter orc k st).wrong = [] ∧
      (api_hint_letter orc k st).hint_letters_used = 0 ∧
      (api_hint_letter orc k st).status = Status.playing ∧
      (api_hint_letter orc k st).last_en = st.word ∧
      (api_hint_letter orc k st).last_th =
        (if orc.tr st.word = "" then "-" else orc.tr st.word) ∧
      (api_hint_letter orc k st).last_about_en =
        (if about_text st = "" then "-" else about_text st) ∧
      (api_hint_letter orc k st).last_about_th =
        (if about_text st = "" then "-" else orc.tr (about_text st))) := by
  constructor
  · intro orc st raw c hp hn ha hg hw hm hlife hdone
    rw [api_guess_norm orc st raw c hp hn, guessChar_fresh orc st c ha hg hw]
    have h1 : ¬ (applyFresh st c).life ≤ 0 := by
      rw [applyFresh_life, if_pos hm]
      exact hlife
    have h2 : ∀ d ∈ (applyFresh st c).word.data, d ∈ (applyFresh st c).guessed := by
      rw [applyFresh_word, applyFresh_guessed, if_pos hm]
      exact hdone
    rw [endOfRound_of_clear orc _ h1 h2]
    refine ⟨?_, ?_, ?_, ?_, ?_, ?_, ?_, ?_, ?_, ?_, ?_⟩ <;>
      simp [start_round, about_text, applyFresh_life, if_pos hm]
  · intro orc k st r hp h2 halpha hrem hlife
    rw [api_hint_accept orc k st hp (by omega) (by rw [hrem]; simp)]
    have hrv : hintReveal st k = r := hintReveal_of_singleton st k r hrem
    have h1 : ¬ (RoundState.life
        { st with
          guessed := hintReveal st k :: st.guessed
          hint_letters_used := st.hint_letters_used + 1
          life := st.life - HINT_LETTER_COST
          message := "💡 Hint: " ++ String.mk [hintReveal st k] ++ " (-2 life) | " ++
            toString (st.hint_letters_used + 1) ++ "/2" }) ≤ 0 := by
      simpa using hlife
    have h2c : ∀ d ∈ (RoundState.word
        { st with
          guessed := hintReveal st k :: st.guessed
          hint_letters_used := st.hint_letters_used + 1
          life := st.life - HINT_LETTER_COST
          message := "💡 Hint: " ++ String.mk [hintReveal st k] ++ " (-2 life) | " ++
            toString (st.hint_letters_used + 1) ++ "/2" }).data,
        d ∈ (RoundState.guessed
        { st with
          guessed := hintReveal st k :: st.guessed
          hint_letters_used := st.hint_letters_used + 1
          life := st.life - HINT_LETTER_COST
          message := "💡 Hint: " ++ String.mk [hintReveal st k] ++ " (-2 life) | " ++
            toString (st.hint_letters_used + 1) ++ "/2" }) := by
      simp only [hrv]
      intro d hd
      by_cases hdg : d ∈ st.guessed
      · exact List.mem_cons_of_mem r hdg
      · have : d ∈ remainingLetters st :=
          (mem_remainingLetters st d).mpr ⟨hd, halpha d hd, hdg⟩
        rw [hrem] at this
        simp only [List.mem_singleton] at this
        rw [this]
        exact List.mem_cons_self r st.guessed
    rw [endOfRound_of_clear orc _ h1 h2c]
    refine ⟨?_, ?_, ?_, ?_, ?_, ?_, ?_, ?_, ?_, ?_, ?_⟩ <;>
      simp [start_round, about_text]

/-- C3 witness: guessing the last letter `t` of `"cat"` (or taking a hint when
only `t` remains) yields a fresh next-stage round with life carried over and
counters reset. -/
theorem C3_witness :
    ((api_guess demoOracle nearlyDone "t").stage = nearlyDone.stage + 1 ∧
     (api_guess demoOracle nearlyDone "t").life = nearlyDone.life + 2 ∧
     (api_guess demoOracle nearlyDone "t").guessed = []) ∧
    ((api_hint_letter demoOracle 0 nearlyDone).stage = nearlyDone.stage + 1 ∧
     (api_hint_letter demoOracle 0 nearlyDone).life =
       nearlyDone.life - HINT_LETTER_COST ∧
     (api_hint_letter demoOracle 0 nearlyDone).hint_letters_used = 0) :=
  ⟨(fun h => ⟨h.1, h.2.1, h.2.2.2.1⟩)
     (C3_clear_starts_next_round.1 demoOracle nearlyDone "t" 't' (by decide)
       (by decide) (by decide) (by decide) (by decide) (by decide) (by decide)
       (by decide)),
   (fun h => ⟨h.1, h.2.1, h.2.2.2.2.2.1⟩)
     (C3_clear_starts_next_round.2 demoOracle 0 nearlyDone 't' (by decide)
       (by decide) (by decide) (by decide) (by decide))⟩

theorem exists_ne_of_nodup_two_le {α : Type} (l : List α) (r : α)
    (hn : l.Nodup) (hl : 2 ≤ l.length) : ∃ d ∈ l, d ≠ r := by
  match l, hn, hl with
  | a :: b :: t, hn, _ =>
    have hab : a ≠ b := by
      rw [List.nodup_cons] at hn
      intro h
      exact hn.1 (h ▸ List.mem_cons_self b t)
    by_cases hra : a = r
    · refine ⟨b, List.mem_cons_of_mem a (List.mem_cons_self b t), ?_⟩
      intro hbr
      exact hab (by rw [hra, hbr])
    · exact ⟨a, List.mem_cons_self _ _, hra⟩


theorem endOfRound_of_missing (orc : Oracle) (st : RoundState) (d : Char)
    (h1 : ¬ st.life ≤ 0) (hd : d ∈ st.word.data) (hdg : d ∉ st.guessed) :
    endOfRound orc st = st := by
  refine endOfRound_of_none orc st h1 ?_
  intro hall
  exact hdg (hall d hd)

theorem api_hint_accept_noend (orc : Oracle) (k : Nat) (st : RoundState)
    (hp : st.status = Status.playing)
    (h2 : ¬ st.hint_letters_used ≥ HINT_LETTER_MAX)
    (h3 : remainingLetters st ≠ [])
    (hlife : ¬ st.life - HINT_LETTER_COST ≤ 0)
    (d : Char) (hd : d ∈ st.word.data) (hdg : d ∉ st.guessed)
    (hdr : d ≠ hintReveal st k) :
    api_hint_letter orc k st =
      { st with
        guessed := hintReveal st k :: st.guessed
        hint_letters_used := st.hint_letters_used + 1
        life := st.life - HINT_LETTER_COST
        message := "💡 Hint: " ++ String.mk [hintReveal st k] ++ " (-2 life) | " ++
          toString (st.hint_letters_used + 1) ++ "/2" } := by
  rw [api_hint_accept orc k st hp h2 h3]
  apply endOfRound_of_missing orc _ d
  · simpa using hlife
  · simpa using hd
  · simp only [List.mem_cons, not_or]
    exact ⟨hdr, hdg⟩

/-- C5: a hint attempt with `hintLettersUsed ≥ 2` is rejected leaving
everything but the message unchanged, so `hintLettersUsed` never exceeds 2 in
any reachable state; an accepted hint (here below, with enough letters left
and enough life that the round does not end on the same move) adds exactly one
letter of the word not yet in `guessed`, increments `hintLettersUsed` by 1,
and costs 2 life. -/
theorem C5_hint_cap :
    (∀ (orc : Oracle) (k : Nat) (st : RoundState),
      st.status = Status.playing → st.hint_letters_used ≥ HINT_LETTER_MAX →
      api_hint_letter orc k st =
        { st with message := "Hint letter limit reached (2 per word)." }) ∧
    (∀ st : RoundState, Reachable st →
      st.hint_letters_used ≤ HINT_LETTER_MAX) ∧
    (∀ (orc : Oracle) (k : Nat) (st : RoundState),
      st.status = Status.playing → st.hint_letters_used < HINT_LETTER_MAX →
      2 ≤ (remainingLetters st).length → ¬ st.life - HINT_LETTER_COST ≤ 0 →
      hintReveal st k ∈ st.word.data ∧ hintReveal st k ∉ st.guessed ∧
      (api_hint_letter orc k st).guessed = hintReveal st k :: st.guessed ∧
      (api_hint_letter orc k st).hint_letters_used = st.hint_letters_used + 1 ∧
      (api_hint_letter orc k st).life = st.life - HINT_LETTER_COST) := by
  refine ⟨?_, reachable_hint_le, ?_⟩
  · intro orc k st hp h
    exact api_hint_limit orc k st hp h
  · intro orc k st hp hlt hlen hlife
    have hne : remainingLetters st ≠ [] := by
      intro h
      rw [h] at hlen
      simp at hlen
    have hrw := (mem_remainingLetters st (hintReveal st k)).mp
      (hintReveal_mem st k hne)
    obtain ⟨d, hdmem, hdne⟩ := exists_ne_of_nodup_two_le (remainingLetters st)
      (hintReveal st k) (List.nodup_dedup _) hlen
    have hdw := (mem_remainingLetters st d).mp hdmem
    have heq := api_hint_accept_noend orc k st hp (by omega) hne hlife d
      hdw.1 hdw.2.2 hdne
    rw [heq]
    exact ⟨hrw.1, hrw.2.2, by simp, by simp, by simp⟩

/-- C5 witness: with both hints used, a third attempt only sets the message;
and from the fresh `"cat"` round, an accepted hint reveals one unguessed
letter of the word for 2 life. -/
theorem C5_witness :
    (api_hint_letter demoOracle 0 hintMaxState =
      { hintMaxState with
        message := "Hint letter limit reached (2 per word)." }) ∧
    (start_round 1 START_LIFE "cat" emptyWiki).hint_letters_used ≤
      HINT_LETTER_MAX ∧
    (hintReveal demoState 0 ∈ demoState.word.data ∧
     hintReveal demoState 0 ∉ demoState.guessed ∧
     (api_hint_letter demoOracle 0 demoState).guessed =
       hintReveal demoState 0 :: demoState.guessed ∧
     (api_hint_letter demoOracle 0 demoState).hint_letters_used =
       demoState.hint_letters_used + 1 ∧
     (api_hint_letter demoOracle 0 demoState).life =
       demoState.life - HINT_LETTER_COST) :=
  ⟨C5_hint_cap.1 demoOracle 0 hintMaxState (by decide) (by decide),
   C5_hint_cap.2.1 _ (Reachable.start "cat" emptyWiki),
   C5_hint_cap.2.2 demoOracle 0 demoState (by decide) (by decide) (by decide)
     (by decide)⟩

/-- C6: a guess whose normalised input is not exactly one alphabetic
character, or whose letter was already tried (in `guessed` or `wrong`),
changes nothing but the advisory message: the state returned equals the old
state with only `message` replaced, so life, guessed, wrong, stage, status and
hintLettersUsed are unchanged and no end-of-round evaluation occurs. -/
theorem C6_invalid_guess_noop :
    (∀ (orc : Oracle) (st : RoundState) (raw : String),
      st.status = Status.playing →
      (¬ ∃ c : Char, normGuess raw = [c] ∧ c.isAlpha) →
      api_guess orc st raw =
        { st with message := "Enter ONE letter only (a-z)" }) ∧
    (∀ (orc : Oracle) (st : RoundState) (raw : String) (c : Char),
      st.status = Status.playing → normGuess raw = [c] → c.isAlpha →
      (c ∈ st.guessed ∨ c ∈ st.wrong) →
      api_guess orc st raw =
        { st with message := "Already guessed: " ++ String.mk [c] }) := by
  constructor
  · intro orc st raw hp hinv
    rcases hd : normGuess raw with _ | ⟨a, _ | ⟨b, t⟩⟩
    · exact api_guess_invalid orc st raw hp (by simp [hd])
    · have ha : ¬ a.isAlpha := fun h => hinv ⟨a, hd, h⟩
      rw [api_guess_norm orc st raw a hp hd]
      exact guessChar_nonalpha orc st a ha
    · exact api_guess_invalid orc st raw hp (by simp [hd])
  · intro orc st raw c hp hn ha hr
    rw [api_guess_norm orc st raw c hp hn]
    exact guessChar_repeat orc st c ha hr

/-- C6 witness: a two-letter input, a non-alphabetic input, and a repeat of
the already-guessed `c` each leave the `"cat"` round unchanged apart from the
message. -/
theorem C6_witness :
    (api_guess demoOracle demoState "ab" =
      { demoState with message := "Enter ONE letter only (a-z)" }) ∧
    (api_guess demoOracle demoState "7" =
      { demoState with message := "Enter ONE letter only (a-z)" }) ∧
    (api_guess demoOracle nearlyDone "c" =
      { nearlyDone with message := "Already guessed: " ++ String.mk ['c'] }) :=
  ⟨C6_invalid_guess_noop.1 demoOracle demoState "ab" (by decide)
     (by
       rintro ⟨c, hc, -⟩
       have hlen : (normGuess "ab").length = 1 := by rw [hc]; rfl
       exact absurd hlen (by decide)),
   C6_invalid_guess_noop.1 demoOracle demoState "7" (by decide)
     (by
       rintro ⟨c, hc, hal⟩
       rw [show normGuess "7" = ['7'] from by decide] at hc
       simp only [List.cons.injEq, and_true] at hc
       rw [← hc] at hal
       exact absurd hal (by decide)),
   C6_invalid_guess_noop.2 demoOracle nearlyDone "c" 'c' (by decide) (by decide)
     (by decide) (by decide)⟩

theorem length_intersperse {α : Type} (sep : α) :
    ∀ l : List α, (List.intersperse sep l).length = 2 * l.length - 1
  | [] => by simp [List.intersperse]
  | [x] => by simp [List.intersperse]
  | x :: y :: t => by
    rw [List.intersperse_cons_cons]
    have ih := length_intersperse sep (y :: t)
    simp only [List.length_cons] at ih ⊢
    omega

theorem getD_intersperse {α : Type} (sep d : α) :
    ∀ (l : List α) (i : Nat), i < l.length →
      (List.intersperse sep l).getD (2 * i) d = l.getD i d
  | [], i, h => by simp at h
  | [x], i, h => by
    have hi : i = 0 := by
      simp only [List.length_singleton] at h
      omega
    subst hi
    simp [List.intersperse]
  | x :: y :: t, 0, h => by
    rw [List.intersperse_cons_cons]
    simp
  | x :: y :: t, i + 1, h => by
    rw [List.intersperse_cons_cons]
    have ih := getD_intersperse sep d (y :: t) i
      (by simpa using Nat.lt_of_succ_lt_succ h)
    have h2 : 2 * (i + 1) = 2 * i + 1 + 1 := by ring
    rw [h2, List.getD_cons_succ, List.getD_cons_succ]
    exact ih

/-- C4 counterexample: `mask_word` space-separates the characters
(`" ".join`), so for `"cat"` with nothing guessed the masked string is
`"_ _ _"` of length 5 while the word has length 3 — the claimed equality of
lengths fails. -/
theorem C4_counterexample :
    (mask_word "cat" []).length = 5 ∧ ("cat" : String).length = 3 ∧
      (mask_word "cat" []).length ≠ ("cat" : String).length := by
  refine ⟨by decide, by decide, by decide⟩

/-- C4 (amended): `mask_word` reveals exactly the letters in `guessed` — the
character at letter position `i` is `word[i]` iff `word[i] ∈ guessed` and the
placeholder `'_'` otherwise — but the per-position characters are joined with
single spaces, so the masked output has the word's letters at even indices
and its total length is `2 * length(word) - 1` for a nonempty word (0 for the
empty word), not `length(word)`. -/
theorem C4_mask_reveals_guessed :
    (∀ (word : String) (guessed : List Char) (i : Nat), i < word.length →
      (maskedChars word guessed).getD i '_' =
        (if word.data.getD i '_' ∈ guessed then word.data.getD i '_' else '_')) ∧
    (∀ (word : String) (guessed : List Char),
      (maskedChars word guessed).length = word.length) ∧
    (∀ (word : String) (guessed : List Char) (i : Nat), i < word.length →
      (mask_word word guessed).data.getD (2 * i) '_' =
        (maskedChars word guessed).getD i '_') ∧
    (∀ (word : String) (guessed : List Char),
      (mask_word word guessed).length = 2 * word.length - 1) ∧
    (∀ guessed : List Char, mask_word "" guessed = "") := by
  refine ⟨?_, ?_, ?_, ?_, ?_⟩
  · intro word guessed i h
    have h' : i < word.data.length := h
    unfold maskedChars
    rw [List.getD_eq_getElem?_getD, List.getElem?_map,
      List.getElem?_eq_getElem h', List.getD_eq_getElem?_getD,
      List.getElem?_eq_getElem h']
    simp
  · intro word guessed
    simp [maskedChars]
  · intro word guessed i h
    have h' : i < (maskedChars word guessed).length := by
      rw [show (maskedChars word guessed).length = word.length from by
        simp [maskedChars]]
      exact h
    unfold mask_word
    exact getD_intersperse ' ' '_' (maskedChars word guessed) i h'
  · intro word guessed
    unfold mask_word
    show (List.intersperse ' ' (maskedChars word guessed)).length = _
    rw [length_intersperse]
    congr 1
    simp [maskedChars]
  · intro guessed
    rfl

/-- C4 witness: the revealed/placeholder characters and the length formula at
`word = "cat"`, `guessed = [c]`, position 1. -/
theorem C4_witness :
    ((maskedChars "cat" ['c']).getD 1 '_' =
      (if ("cat" : String).data.getD 1 '_' ∈ ['c'] then
        ("cat" : String).data.getD 1 '_' else '_')) ∧
    ((mask_word "cat" ['c']).data.getD 2 '_' =
      (maskedChars "cat" ['c']).getD 1 '_') ∧
    (mask_word "cat" ['c']).length = 2 * ("cat" : String).length - 1 :=
  ⟨C4_mask_reveals_guessed.1 "cat" ['c'] 1 (by decide),
   C4_mask_reveals_guessed.2.2.1 "cat" ['c'] 1 (by decide),
   C4_mask_reveals_guessed.2.2.2.1 "cat" ['c']⟩

theorem string_eq_empty_iff (s : String) : s = "" ↔ s.data = [] := by
  constructor
  · intro h
    rw [h]
  · intro h
    cases s
    exact congrArg String.mk h

/-- C9: the public projection carries no field computed from the hidden word
other than `length` and `masked`: two states that differ only in `word`, with
words of equal length and equal per-position mask under the state's guessed
set, produce identical public projections; and in the mask every unguessed
letter position shows the placeholder `'_'`. -/
theorem C9_word_hidden :
    (∀ (st : RoundState) (w : String),
      w.length = st.word.length →
      maskedChars w st.guessed = maskedChars st.word st.guessed →
      public_state { st with word := w } = public_state st) ∧
    (∀ (word : String) (guessed : List Char) (i : Nat), i < word.length →
      word.data.getD i '_' ∉ guessed →
      (maskedChars word guessed).getD i '_' = '_') := by
  constructor
  · intro st w h1 h2
    have hmask : mask_word w st.guessed = mask_word st.word st.guessed := by
      unfold mask_word
      rw [h2]
    have hempty : (w = "") ↔ (st.word = "") := by
      rw [string_eq_empty_iff, string_eq_empty_iff, ← List.length_eq_zero,
        ← List.length_eq_zero]
      show w.length = 0 ↔ st.word.length = 0
      rw [h1]
    simp [public_state, h1, hmask, hempty]
  · intro word guessed i h hng
    have h' : i < word.data.length := h
    unfold maskedChars
    rw [List.getD_eq_getElem?_getD, List.getElem?_map, List.getElem?_eq_getElem h']
    rw [List.getD_eq_getElem?_getD, List.getElem?_eq_getElem h'] at hng
    simp only [Option.getD_some] at hng
    simp [hng]

/-- C9 witness: replacing the hidden word `"cat"` by `"dog"` (same length,
same all-placeholder mask) leaves the public projection unchanged, and the
unguessed position 1 of `"cat"` shows `'_'`. -/
theorem C9_witness :
    public_state { demoState with word := "dog" } = public_state demoState ∧
    (maskedChars "cat" ['c']).getD 1 '_' = '_' :=
  ⟨C9_word_hidden.1 demoState "dog" (by decide) (by decide),
   C9_word_hidden.2 "cat" ['c'] 1 (by decide) (by decide)⟩

@[simp] theorem about_text_applyFresh (st : RoundState) (c : Char) :
    about_text (applyFresh st c) = about_text st := by
  unfold about_text
  rw [applyFresh_desc, applyFresh_extract]

theorem endOfRound_capture (orc : Oracle) (st : RoundState)
    (hend : st.life ≤ 0 ∨ ∀ d ∈ st.word.data, d ∈ st.guessed) :
    (endOfRound orc st).last_en = st.word ∧
    (endOfRound orc st).last_th =
      (if orc.tr st.word = "" then "-" else orc.tr st.word) ∧
    (endOfRound orc st).last_about_en =
      (if about_text st = "" then "-" else about_text st) ∧
    (endOfRound orc st).last_about_th =
      (if about_text st = "" then "-" else orc.tr (about_text st)) := by
  by_cases h1 : st.life ≤ 0
  · rw [endOfRound_of_fail orc st h1]
    exact ⟨by simp, by simp, by simp [about_text], by simp [about_text]⟩
  · have h2 := hend.resolve_left h1
    rw [endOfRound_of_clear orc st h1 h2]
    exact ⟨by simp, by simp, by simp [about_text], by simp [about_text]⟩

/-- C10: whenever a guess or a hint ends the round (fail or clear), the
captured `last_th` (translated word) is never the empty string — it is the
translation when non-empty and the literal `"-"` otherwise — whereas
`last_about_th` falls back to `"-"` only when the about text is empty, so it
equals the raw translation result (possibly `""`) whenever the about text is
non-empty. -/
theorem C10_translated_fallbacks :
    (∀ (orc : Oracle) (st : RoundState) (raw : String) (c : Char),
      st.status = Status.playing → normGuess raw = [c] → c.isAlpha →
      c ∉ st.guessed → c ∉ st.wrong →
      ((applyFresh st c).life ≤ 0 ∨
        ∀ d ∈ st.word.data, d ∈ (applyFresh st c).guessed) →
      (api_guess orc st raw).last_th ≠ "" ∧
      (api_guess orc st raw).last_th =
        (if orc.tr st.word = "" then "-" else orc.tr st.word) ∧
      (about_text st = "" → (api_guess orc st raw).last_about_th = "-") ∧
      (about_text st ≠ "" →
        (api_guess orc st raw).last_about_th = orc.tr (about_text st))) ∧
    (∀ (orc : Oracle) (k : Nat) (st : RoundState),
      st.status = Status.playing → st.hint_letters_used < HINT_LETTER_MAX →
      remainingLetters st ≠ [] →
      (st.life - HINT_LETTER_COST ≤ 0 ∨
        ∀ d ∈ st.word.data, d ∈ hintReveal st k :: st.guessed) →
      (api_hint_letter orc k st).last_th ≠ "" ∧
      (api_hint_letter orc k st).last_th =
        (if orc.tr st.word = "" then "-" else orc.tr st.word) ∧
      (about_text st = "" → (api_hint_letter orc k st).last_about_th = "-") ∧
      (about_text st ≠ "" →
        (api_hint_letter orc k st).last_about_th = orc.tr (about_text st))) := by
  constructor
  · intro orc st raw c hp hn ha hg hw hend
    rw [api_guess_norm orc st raw c hp hn, guessChar_fresh orc st c ha hg hw]
    obtain ⟨he1, he2, he3, he4⟩ := endOfRound_capture orc (applyFresh st c)
      (by
        rcases hend with h | h
        · exact Or.inl h
        · refine Or.inr ?_
          rw [applyFresh_word]
          exact h)
    rw [applyFresh_word] at he2
    rw [about_text_applyFresh] at he3 he4
    refine ⟨?_, he2, ?_, ?_⟩
    · rw [he2]
      by_cases htr : orc.tr st.word = ""
      · rw [if_pos htr]
        decide
      · rw [if_neg htr]
        exact htr
    · intro hab
      rw [he4, if_pos hab]
    · intro hab
      rw [he4, if_neg hab]
  · intro orc k st hp hlt hne hend
    rw [api_hint_accept orc k st hp (by omega) hne]
    set R : RoundState := { st with
      guessed := hintReveal st k :: st.guessed
      hint_letters_used := st.hint_letters_used + 1
      life := st.life - HINT_LETTER_COST
      message := "💡 Hint: " ++ String.mk [hintReveal st k] ++ " (-2 life) | " ++
        toString (st.hint_letters_used + 1) ++ "/2" } with hR
    have hRword : R.word = st.word := by rw [hR]
    have hRlife : R.life = st.life - HINT_LETTER_COST := by rw [hR]
    have hRguessed : R.guessed = hintReveal st k :: st.guessed := by rw [hR]
    have hRabout : about_text R = about_text st := by
      rw [hR]
      simp [about_text]
    obtain ⟨he1, he2, he3, he4⟩ := endOfRound_capture orc R
      (by
        rcases hend with h | h
        · refine Or.inl ?_
          rw [hRlife]
          exact h
        · refine Or.inr ?_
          rw [hRword, hRguessed]
          exact h)
    rw [hRword] at he2
    rw [hRabout] at he3 he4
    refine ⟨?_, he2, ?_, ?_⟩
    · rw [he2]
      by_cases htr : orc.tr st.word = ""
      · rw [if_pos htr]
        decide
      · rw [if_neg htr]
        exact htr
    · intro hab
      rw [he4, if_pos hab]
    · intro hab
      rw [he4, if_neg hab]

/-- C10 witness: failing at life 1 with the wrong guess `x` (translation
service failing) gives `last_th = "-"` and, with empty about text,
`last_about_th = "-"`. -/
theorem C10_witness :
    (api_guess demoOracle lowLifeState "x").last_th ≠ "" ∧
    (api_guess demoOracle lowLifeState "x").last_th =
      (if demoOracle.tr lowLifeState.word = "" then "-"
        else demoOracle.tr lowLifeState.word) ∧
    (about_text lowLifeState = "" →
      (api_guess demoOracle lowLifeState "x").last_about_th = "-") ∧
    (about_text lowLifeState ≠ "" →
      (api_guess demoOracle lowLifeState "x").last_about_th =
        demoOracle.tr (about_text lowLifeState)) :=
  C10_translated_fallbacks.1 demoOracle lowLifeState "x" 'x' (by decide)
    (by decide) (by decide) (by decide) (by decide) (by decide)

theorem translate_hit (hasLib : Bool) (libCall mmCall : String → Option String)
    (cache : List (String × String)) (text0 : String) (v : String)
    (h0 : pyStrip text0 ≠ "")
    (hc : cache.lookup (pyLower (pyStrip text0)) = some v) :
    translate_to_th hasLib libCall mmCall cache text0 = (v, cache) := by
  unfold translate_to_th
  rw [if_neg h0, hc]

theorem translate_chain (hasLib : Bool) (libCall mmCall : String → Option String)
    (cache : List (String × String)) (text0 : String)
    (h0 : pyStrip text0 ≠ "")
    (hc : cache.lookup (pyLower (pyStrip text0)) = none) :
    translate_to_th hasLib libCall mmCall cache text0 =
      if hasLib then
        match libCall (pyStrip text0) with
        | some raw =>
          if pyStrip raw = "" then (pyStrip raw, cache)
          else (pyStrip raw, (pyLower (pyStrip text0), pyStrip raw) :: cache)
        | none => translateFallback mmCall cache (pyStrip text0)
      else translateFallback mmCall cache (pyStrip text0) := by
  unfold translate_to_th
  rw [if_neg h0, hc]

theorem translateFallback_snd (mmCall : String → Option String)
    (cache : List (String × String)) (text : String)
    (h : (translateFallback mmCall cache text).1 = "") :
    (translateFallback mmCall cache text).2 = cache := by
  rcases hm : mmCall text with _ | raw
  · have he : translateFallback mmCall cache text = ("", cache) := by
      unfold translateFallback
      rw [hm]
    rw [he]
  · have he : translateFallback mmCall cache text =
        if pyStrip raw = "" then (pyStrip raw, cache)
        else (pyStrip raw, (pyLower text, pyStrip raw) :: cache) := by
      unfold translateFallback
      rw [hm]
    rw [he] at h ⊢
    by_cases hraw : pyStrip raw = ""
    · rw [if_pos hraw]
    · rw [if_neg hraw] at h ⊢
      exact absurd h hraw

theorem wiki_hit (svc : String → Option WikiInfo)
    (cache : List (String × WikiInfo)) (word0 : String) (v : WikiInfo)
    (h0 : pyStrip word0 ≠ "")
    (hc : cache.lookup (pyLower (pyStrip word0)) = some v) :
    wikipedia_summary svc cache word0 = (v, cache) := by
  unfold wikipedia_summary
  rw [if_neg h0, hc]

theorem wiki_fail (svc : String → Option WikiInfo)
    (cache : List (String × WikiInfo)) (word0 : String)
    (h0 : pyStrip word0 ≠ "")
    (hc : cache.lookup (pyLower (pyStrip word0)) = none)
    (hs : svc (pyStrip word0) = none) :
    wikipedia_summary svc cache word0 =
      (emptyWiki, (pyLower (pyStrip word0), emptyWiki) :: cache) := by
  unfold wikipedia_summary
  rw [if_neg h0, hc, hs]

theorem translate_lib_some (hasLib : Bool)
    (libCall mmCall : String → Option String)
    (cache : List (String × String)) (text0 raw : String)
    (h0 : pyStrip text0 ≠ "")
    (hc : cache.lookup (pyLower (pyStrip text0)) = none)
    (hl : hasLib = true) (hlc : libCall (pyStrip text0) = some raw) :
    translate_to_th hasLib libCall mmCall cache text0 =
      (if pyStrip raw = "" then (pyStrip raw, cache)
        else (pyStrip raw, (pyLower (pyStrip text0), pyStrip raw) :: cache)) := by
  unfold translate_to_th
  rw [if_neg h0, hc, hl, hlc]
  rfl

theorem translate_lib_none (hasLib : Bool)
    (libCall mmCall : String → Option String)
    (cache : List (String × String)) (text0 : String)
    (h0 : pyStrip text0 ≠ "")
    (hc : cache.lookup (pyLower (pyStrip text0)) = none)
    (hl : hasLib = true) (hlc : libCall (pyStrip text0) = none) :
    translate_to_th hasLib libCall mmCall cache text0 =
      translateFallback mmCall cache (pyStrip text0) := by
  unfold translate_to_th
  rw [if_neg h0, hc, hl, hlc]
  rfl

theorem translate_nolib (hasLib : Bool)
    (libCall mmCall : String → Option String)
    (cache : List (String × String)) (text0 : String)
    (h0 : pyStrip text0 ≠ "")
    (hc : cache.lookup (pyLower (pyStrip text0)) = none)
    (hl : hasLib = false) :
    translate_to_th hasLib libCall mmCall cache text0 =
      translateFallback mmCall cache (pyStrip text0) := by
  unfold translate_to_th
  rw [if_neg h0, hc, hl]
  rfl

/-- C8: the two caches treat failures asymmetrically.  `wikipedia_summary`
caches a failed external call permanently as the all-empty record, and a
cached key is answered from the cache regardless of the external service, so
it is never re-fetched; `translate_to_th` leaves the cache untouched whenever
it returns the empty string (failed or empty translation, so that key is
retried next call), and a key already in the cache is returned as-is with the
cache unchanged (a first cached success is never overwritten). -/
theorem C8_cache_asymmetry :
    (∀ (svc : String → Option WikiInfo) (cache : List (String × WikiInfo))
      (word0 : String),
      pyStrip word0 ≠ "" → cache.lookup (pyLower (pyStrip word0)) = none →
      svc (pyStrip word0) = none →
      wikipedia_summary svc cache word0 =
        (emptyWiki, (pyLower (pyStrip word0), emptyWiki) :: cache)) ∧
    (∀ (svc : String → Option WikiInfo) (cache : List (String × WikiInfo))
      (word0 : String) (v : WikiInfo),
      pyStrip word0 ≠ "" → cache.lookup (pyLower (pyStrip word0)) = some v →
      wikipedia_summary svc cache word0 = (v, cache)) ∧
    (∀ (hasLib : Bool) (libCall mmCall : String → Option String)
      (cache : List (String × String)) (text0 : String),
      (translate_to_th hasLib libCall mmCall cache text0).1 = "" →
      (translate_to_th hasLib libCall mmCall cache text0).2 = cache) ∧
    (∀ (hasLib : Bool) (libCall mmCall : String → Option String)
      (cache : List (String × String)) (text0 : String) (v : String),
      pyStrip text0 ≠ "" → cache.lookup (pyLower (pyStrip text0)) = some v →
      translate_to_th hasLib libCall mmCall cache text0 = (v, cache)) := by
  refine ⟨?_, ?_, ?_, ?_⟩
  · intro svc cache word0 h0 hc hs
    exact wiki_fail svc cache word0 h0 hc hs
  · intro svc cache word0 v h0 hc
    exact wiki_hit svc cache word0 v h0 hc
  · intro hasLib libCall mmCall cache text0 h
    by_cases h0 : pyStrip text0 = ""
    · have he : translate_to_th hasLib libCall mmCall cache text0 = ("", cache) := by
        unfold translate_to_th
        rw [if_pos h0]
      rw [he]
    · rcases hc : cache.lookup (pyLower (pyStrip text0)) with _ | v
      · cases hasLib with
        | false =>
          rw [translate_nolib false libCall mmCall cache text0 h0 hc rfl] at h ⊢
          exact translateFallback_snd mmCall cache (pyStrip text0) h
        | true =>
          rcases hlc : libCall (pyStrip text0) with _ | raw
          · rw [translate_lib_none true libCall mmCall cache text0 h0 hc rfl hlc]
              at h ⊢
            exact translateFallback_snd mmCall cache (pyStrip text0) h
          · rw [translate_lib_some true libCall mmCall cache text0 raw h0 hc rfl
              hlc] at h ⊢
            by_cases hraw : pyStrip raw = ""
            · rw [if_pos hraw]
            · rw [if_neg hraw] at h ⊢
              exact absurd h hraw
      · rw [translate_hit hasLib libCall mmCall cache text0 v h0 hc]
  · intro hasLib libCall mmCall cache text0 v h0 hc
    exact translate_hit hasLib libCall mmCall cache text0 v h0 hc

/-- C8 witness: a failing summary call for `"cat"` caches the empty record; a
cached summary key is answered from the cache even though the service now
fails; a failing translation leaves the cache empty; and a cached translation
is returned unchanged. -/
theorem C8_witness :
    (wikipedia_summary (fun _ => none) [] "cat" =
      (emptyWiki, (pyLower (pyStrip "cat"), emptyWiki) :: [])) ∧
    (wikipedia_summary (fun _ => none)
      [(pyLower (pyStrip "cat"), emptyWiki)] "cat" =
      (emptyWiki, [(pyLower (pyStrip "cat"), emptyWiki)])) ∧
    ((translate_to_th false (fun _ => none) (fun _ => none) [] "cat").2 =
      ([] : List (String × String))) ∧
    (translate_to_th false (fun _ => none) (fun _ => none)
      [(pyLower (pyStrip "cat"), "maew")] "cat" =
      ("maew", [(pyLower (pyStrip "cat"), "maew")])) :=
  ⟨C8_cache_asymmetry.1 (fun _ => none) [] "cat" (by decide) rfl rfl,
   C8_cache_asymmetry.2.1 (fun _ => none) [(pyLower (pyStrip "cat"), emptyWiki)]
     "cat" emptyWiki (by decide) (by decide),
   C8_cache_asymmetry.2.2.1 false (fun _ => none) (fun _ => none) [] "cat"
     (by decide),
   C8_cache_asymmetry.2.2.2 false (fun _ => none) (fun _ => none)
     [(pyLower (pyStrip "cat"), "maew")] "cat" "maew" (by decide) (by decide)⟩
